import Mathlib

/-!
Verification of the selection-and-orchestration core of the TensorComparativeVis
frontend: the Zustand dashboard store (`dashboardStore`) and the scatter-plot
brush-selection callback (`handleBrushEnd`).

Shallow embedding conventions:
* JS `number` is modelled by `ℚ` (exact linear arithmetic; the mapped screen
  positions are affine images of the data coordinates).
* JS `null` fields are modelled by `Option`; `number[]` by `List ℕ` / `List ℚ`.
* The store's `set` calls become pure state-transformer functions
  `DashboardState → DashboardState`.
* Impure identifier/timestamp generation in `saveCurrentAnalysis`
  (`Date.now()`, `Math.random()`, `new Date()`) is abstracted into explicit
  `newId` / `now` parameters.
* `Array.prototype.sort` (guaranteed stable) with comparator
  `(a, b) => b[1] - a[1]` is modelled by sorting the index-tagged entries with
  the lexicographic key (count descending, original position ascending); this
  is exactly the stable-sort result and is independent of the sort algorithm.
* The insertion-ordered string-keyed record built by `reduce` in
  `saveCurrentAnalysis` is modelled by an association list in insertion order.
-/

namespace TCVis

/-- `StatisticalResult` from `types/index.ts`.  The source field `variable`
is a Lean keyword, so it is rendered `variableName` here (same below). -/
structure StatisticalResult where
  rack : String
  variableName : String
  direction : String
  mean_diff : ℚ
  p_value : ℚ
  cohen_d : ℚ
  significance : String
  effect_size : String
  deriving DecidableEq

/-- `FeatureImportance` from `types/index.ts`. -/
structure FeatureImportance where
  rank : ℕ
  rack : String
  variableName : String
  score : ℚ
  importance : ℚ
  cluster1_data : List ℚ
  cluster2_data : List ℚ
  cluster1_time : List String
  cluster2_time : List String
  mean_diff : ℚ
  statistical_result : StatisticalResult
  deriving DecidableEq

/-- `InterpretationSection` from `types/index.ts`. -/
structure InterpretationSection where
  title : String
  text : String
  highlights : List String
  deriving DecidableEq

/-- `EmbeddingPoint` from `types/index.ts`. -/
structure EmbeddingPoint where
  x : ℚ
  y : ℚ
  index : ℕ
  label : ℤ
  deriving DecidableEq

/-- `ClusterSelection` from `types/index.ts`: two nullable index arrays. -/
structure ClusterSelection where
  cluster1 : Option (List ℕ)
  cluster2 : Option (List ℕ)
  deriving DecidableEq

/-- The `summary` field of `SavedAnalysis` (store `dashboardStore`). -/
structure AnalysisSummary where
  significant_count : ℕ
  top_variables : List String
  top_racks : List String
  deriving DecidableEq

/-- `SavedAnalysis` from the store.  `timestamp : Date` is modelled as `ℕ`. -/
structure SavedAnalysis where
  id : String
  timestamp : ℕ
  cluster1_indices : List ℕ
  cluster2_indices : List ℕ
  cluster1_size : ℕ
  cluster2_size : ℕ
  top_features : List FeatureImportance
  interpretation : List InterpretationSection
  summary : AnalysisSummary
  deriving DecidableEq

/-- The store state (the fields of `DashboardState` that the verified
operations read or write; pure UI fields such as `activeTab` are omitted). -/
structure DashboardState where
  embeddingData : List EmbeddingPoint
  scaledData : Option (List (List ℚ))
  Ms : Option (List (List ℚ))
  Mv : Option (List (List ℚ))
  clusters : ClusterSelection
  topFeatures : Option (List FeatureImportance)
  contributionMatrix : Option (List (List ℚ))
  interpretation : Option (List InterpretationSection)
  analysisHistory : List SavedAnalysis
  selectedHistoryIds : List String
  isLoading : Bool
  deriving DecidableEq

/-- `const MAX_HISTORY_SIZE = 10;` -/
def MAX_HISTORY_SIZE : ℕ := 10

/-- The store's initial state, from the object literal in `create(...)`. -/
def initialState : DashboardState where
  embeddingData := []
  scaledData := none
  Ms := none
  Mv := none
  clusters := ⟨none, none⟩
  topFeatures := none
  contributionMatrix := none
  interpretation := none
  analysisHistory := []
  selectedHistoryIds := []
  isLoading := false

/-- `setEmbeddingData(embedding, labels, scaledData, Ms, Mv)`:
builds the `EmbeddingPoint` collection with `index` = the position in the
received `embedding` array (`embedding.map((point, index) => ...)`), stores
the auxiliary matrices, and clears the history and the comparison selection. -/
def setEmbeddingData (embedding : List (List ℚ)) (labels : List ℤ)
    (scaledData Ms Mv : List (List ℚ)) (s : DashboardState) : DashboardState :=
  { s with
    embeddingData := embedding.enum.map (fun p =>
      { x := p.2.getD 0 0, y := p.2.getD 1 0, index := p.1,
        label := labels.getD p.1 0 })
    scaledData := some scaledData
    Ms := some Ms
    Mv := some Mv
    analysisHistory := []
    selectedHistoryIds := [] }

/-- `selectCluster1(indices)`: sets cluster1 and resets cluster2 to `null`. -/
def selectCluster1 (indices : List ℕ) (s : DashboardState) : DashboardState :=
  { s with clusters := { cluster1 := some indices, cluster2 := none } }

/-- `selectCluster2(indices)`: sets cluster2, keeping cluster1 unchanged. -/
def selectCluster2 (indices : List ℕ) (s : DashboardState) : DashboardState :=
  { s with clusters := { s.clusters with cluster2 := some indices } }

/-- `resetClusters()`: clears both clusters, the analysis results and the
interpretation (but not the embedding data or the history). -/
def resetClusters (s : DashboardState) : DashboardState :=
  { s with
    clusters := ⟨none, none⟩
    topFeatures := none
    contributionMatrix := none
    interpretation := none }

/-- `setAnalysisResults(features, matrix)`. -/
def setAnalysisResults (features : List FeatureImportance)
    (matrix : List (List ℚ)) (s : DashboardState) : DashboardState :=
  { s with topFeatures := some features, contributionMatrix := some matrix }

/-- `setInterpretation(sections)`. -/
def setInterpretation (sections : List InterpretationSection)
    (s : DashboardState) : DashboardState :=
  { s with interpretation := some sections }

/-- One step of the `reduce` in `saveCurrentAnalysis` that counts variable
occurrences: `acc[f.variable] = (acc[f.variable] || 0) + 1`.  The JS record is
modelled as an association list in key-insertion order (which is the order
`Object.entries` later returns for these non-numeric keys). -/
def bumpVariable (acc : List (String × ℕ)) (v : String) : List (String × ℕ) :=
  if acc.any (fun e => e.1 == v) then
    acc.map (fun e => if e.1 == v then (e.1, e.2 + 1) else e)
  else
    acc ++ [(v, 1)]

/-- The variable-occurrence counts of `saveCurrentAnalysis`
(`state.topFeatures.reduce(...)`), in key-insertion order. -/
def variableCounts (tf : List FeatureImportance) : List (String × ℕ) :=
  tf.foldl (fun acc f => bumpVariable acc f.variableName) []

/-- Comparison used to model the stable JS sort
`Object.entries(variableCounts).sort((a, b) => b[1] - a[1])`: entries are
tagged with their original position, and ties in the count are broken by that
position, which is exactly what a stable sort produces. -/
def countDescLe (a b : ℕ × (String × ℕ)) : Bool :=
  decide (b.2.2 < a.2.2 ∨ (a.2.2 = b.2.2 ∧ a.1 ≤ b.1))

/-- `sortedVars` of `saveCurrentAnalysis`: variable names by descending
occurrence count, ties kept in first-seen order. -/
def sortedVarsOf (tf : List FeatureImportance) : List String :=
  (((variableCounts tf).enum.mergeSort countDescLe).map (fun e => e.2.1))

/-- `saveCurrentAnalysis()`: a no-op unless cluster1, cluster2, topFeatures
and interpretation are all populated (non-`null`); otherwise prepends a new
`SavedAnalysis` snapshot and truncates the history to `MAX_HISTORY_SIZE`. -/
def saveCurrentAnalysis (newId : String) (now : ℕ) (s : DashboardState) :
    DashboardState :=
  match s.clusters.cluster1, s.clusters.cluster2, s.topFeatures,
      s.interpretation with
  | some c1, some c2, some tf, some interp =>
      let significantFeatures :=
        tf.filter (fun f => decide (f.statistical_result.p_value < 0.05))
      let sortedVars := sortedVarsOf tf
      let racks := (tf.take 5).map (fun f => f.rack)
      let newAnalysis : SavedAnalysis :=
        { id := newId
          timestamp := now
          cluster1_indices := c1
          cluster2_indices := c2
          cluster1_size := c1.length
          cluster2_size := c2.length
          top_features := tf
          interpretation := interp
          summary :=
            { significant_count := significantFeatures.length
              top_variables := sortedVars.take 3
              top_racks := racks } }
      { s with
        analysisHistory := (newAnalysis :: s.analysisHistory).take MAX_HISTORY_SIZE }
  | _, _, _, _ => s

/-- `clearHistory()`. -/
def clearHistory (s : DashboardState) : DashboardState :=
  { s with analysisHistory := [], selectedHistoryIds := [] }

/-- `Array.prototype.slice(-2)`: the last (at most) two elements. -/
def sliceLast2 (l : List String) : List String := l.drop (l.length - 2)

/-- The new comparison selection of `toggleHistorySelection(id)`: remove the
id when present, otherwise append it and keep the last two
(`[...ids, id].slice(-2)`). -/
def toggleIds (id : String) (ids : List String) : List String :=
  if ids.contains id then
    ids.filter (fun hid => hid != id)
  else
    sliceLast2 (ids ++ [id])

/-- `toggleHistorySelection(id)`: updates only `selectedHistoryIds`. -/
def toggleHistorySelection (id : String) (s : DashboardState) : DashboardState :=
  { s with selectedHistoryIds := toggleIds id s.selectedHistoryIds }

/-- `clearHistorySelection()`. -/
def clearHistorySelection (s : DashboardState) : DashboardState :=
  { s with selectedHistoryIds := [] }

/-! The brush-selection callback `handleBrushEnd` of the scatter plot
(`ScatterPlot`), which drives `selectCluster1` / `selectCluster2`. -/

/-- `d3.extent`: the (min, max) of a list of values.  `d3.extent` of an empty
collection is undefined; `handleBrushEnd` guards `embeddingData.length === 0`
before using it, so the `[]` case below is never reached from the callback. -/
def extent (l : List ℚ) : ℚ × ℚ :=
  match l with
  | [] => (0, 0)
  | x :: xs => (xs.foldl min x, xs.foldl max x)

/-- `d3.scaleLinear().domain([d0, d1]).range([r0, r1])` applied to `t`. -/
def scaleLinear (d0 d1 r0 r1 t : ℚ) : ℚ :=
  r0 + (t - d0) * (r1 - r0) / (d1 - d0)

/-- The completed brush rectangle `[[x0, y0], [x1, y1]]` of the gesture. -/
structure BrushRect where
  x0 : ℚ
  y0 : ℚ
  x1 : ℚ
  y1 : ℚ
  deriving DecidableEq

/-- `xScale(d.x)`: the screen-space x position of a point, under the scale
recomputed from the current data extent with 15% padding on each end,
mapping onto `[0, innerWidth]`. -/
def screenX (data : List EmbeddingPoint) (innerWidth : ℚ)
    (d : EmbeddingPoint) : ℚ :=
  let xExtent := extent (data.map EmbeddingPoint.x)
  let xPadding := (xExtent.2 - xExtent.1) * 0.15
  scaleLinear (xExtent.1 - xPadding) (xExtent.2 + xPadding) 0 innerWidth d.x

/-- `yScale(d.y)`: the screen-space y position, mapping the padded y extent
onto `[innerHeight, 0]` (inverted, origin top-left). -/
def screenY (data : List EmbeddingPoint) (innerHeight : ℚ)
    (d : EmbeddingPoint) : ℚ :=
  let yExtent := extent (data.map EmbeddingPoint.y)
  let yPadding := (yExtent.2 - yExtent.1) * 0.15
  scaleLinear (yExtent.1 - yPadding) (yExtent.2 + yPadding) innerHeight 0 d.y

/-- `new Set(clusters.cluster1 || [])` as an index list. -/
def cluster1Ids (s : DashboardState) : List ℕ := s.clusters.cluster1.getD []

/-- `new Set(clusters.cluster2 || [])` as an index list. -/
def cluster2Ids (s : DashboardState) : List ℕ := s.clusters.cluster2.getD []

/-- The rectangle test of the brush filter:
`px >= x0 && px <= x1 && py >= y0 && py <= y1` (inclusive bounds). -/
def inBrushRect (r : BrushRect) (innerWidth innerHeight : ℚ)
    (data : List EmbeddingPoint) (d : EmbeddingPoint) : Prop :=
  r.x0 ≤ screenX data innerWidth d ∧ screenX data innerWidth d ≤ r.x1 ∧
  r.y0 ≤ screenY data innerHeight d ∧ screenY data innerHeight d ≤ r.y1

instance (r : BrushRect) (w h : ℚ) (data : List EmbeddingPoint)
    (d : EmbeddingPoint) : Decidable (inBrushRect r w h data d) := by
  unfold inBrushRect; infer_instance

/-- `selectedIndices` of `handleBrushEnd`: filter out points already in a
cluster (first, independently of the rectangle test), then test the mapped
position against the rectangle, and collect `d.index` in iteration order. -/
def brushCandidates (r : BrushRect) (innerWidth innerHeight : ℚ)
    (s : DashboardState) : List ℕ :=
  (s.embeddingData.filter (fun d =>
    if (cluster1Ids s).contains d.index || (cluster2Ids s).contains d.index then
      false
    else
      decide (inBrushRect r innerWidth innerHeight s.embeddingData d))).map
    EmbeddingPoint.index

/-- `handleBrushEnd` (given a non-null `event.selection`): no-op on empty data
or an empty candidate set; otherwise assign the candidates to cluster1 if it
is unset, else to cluster2 if that is unset, else overwrite cluster1 (which
also clears cluster2). -/
def handleBrushEnd (r : BrushRect) (innerWidth innerHeight : ℚ)
    (s : DashboardState) : DashboardState :=
  if s.embeddingData.isEmpty then s
  else
    let selectedIndices := brushCandidates r innerWidth innerHeight s
    if selectedIndices.isEmpty then s
    else
      match s.clusters.cluster1, s.clusters.cluster2 with
      | none, _ => selectCluster1 selectedIndices s
      | some _, none => selectCluster2 selectedIndices s
      | some _, some _ => selectCluster1 selectedIndices s

/-! The operations through which the application drives the store.  Brush
selection enters through `handleBrushEnd`, which dispatches to
`selectCluster1` / `selectCluster2` with the filtered candidate set (these
are the only call sites of `selectCluster2` in the repository; raw
`selectCluster1` is additionally included with an arbitrary argument). -/

inductive Event where
  | brush (r : BrushRect) (innerWidth innerHeight : ℚ)
  | selC1 (indices : List ℕ)
  | reset
  | setEmb (embedding : List (List ℚ)) (labels : List ℤ)
      (scaledData Ms Mv : List (List ℚ))
  | setResults (features : List FeatureImportance) (matrix : List (List ℚ))
  | setInterp (sections : List InterpretationSection)
  | save (newId : String) (now : ℕ)
  | toggleSel (id : String)
  | clearHist
  | clearHistSel

/-- The state transformer of one operation. -/
def step (e : Event) (s : DashboardState) : DashboardState :=
  match e with
  | .brush r w h => handleBrushEnd r w h s
  | .selC1 indices => selectCluster1 indices s
  | .reset => resetClusters s
  | .setEmb em lb sd ms mv => setEmbeddingData em lb sd ms mv s
  | .setResults f m => setAnalysisResults f m s
  | .setInterp secs => setInterpretation secs s
  | .save i n => saveCurrentAnalysis i n s
  | .toggleSel i => toggleHistorySelection i s
  | .clearHist => clearHistory s
  | .clearHistSel => clearHistorySelection s

/-- The state reached from the store's initial state by a sequence of
operations; `run evs` ranges over exactly the reachable states. -/
def run (evs : List Event) : DashboardState :=
  evs.foldl (fun s e => step e s) initialState

/-! ### Concrete sample data used by the witnesses

With two points at (0,0) and (10,10), the extents are [0,10], the padding is
1.5, so the padded domain is [-1.5, 11.5]; with inner dimensions 13 × 13 the
screen mapping is px = x + 1.5, py = 11.5 - y. -/

def ptA : EmbeddingPoint := { x := 0, y := 0, index := 0, label := 0 }

def ptB : EmbeddingPoint := { x := 10, y := 10, index := 1, label := 1 }

/-- A state with two embedded points and nothing selected. -/
def sEx : DashboardState := { initialState with embeddingData := [ptA, ptB] }

/-- A brush rectangle around the screen position (1.5, 11.5) of `ptA`. -/
def rectA : BrushRect := ⟨0, 10, 3, 13⟩

/-- A brush rectangle around the screen position (11.5, 1.5) of `ptB`. -/
def rectB : BrushRect := ⟨10, 0, 13, 3⟩

/-- A brush rectangle containing no point. -/
def rectNone : BrushRect := ⟨0, 0, 1, 1⟩

/-- A minimal `FeatureImportance` with the fields the claims inspect. -/
def mkFeature (rack variableName : String) (p : ℚ) : FeatureImportance where
  rank := 0
  rack := rack
  variableName := variableName
  score := 0
  importance := 0
  cluster1_data := []
  cluster2_data := []
  cluster1_time := []
  cluster2_time := []
  mean_diff := 0
  statistical_result :=
    { rack := rack, variableName := variableName, direction := "up"
      mean_diff := 0, p_value := p, cohen_d := 0, significance := "s"
      effect_size := "m" }

def tfEx : List FeatureImportance :=
  [mkFeature "A01" "cpu" (1/100), mkFeature "B02" "temp" (2/10),
   mkFeature "C03" "cpu" (5/10)]

def secEx : InterpretationSection := { title := "t", text := "x", highlights := [] }

def savedOld : SavedAnalysis where
  id := "old"
  timestamp := 0
  cluster1_indices := [0]
  cluster2_indices := [1]
  cluster1_size := 1
  cluster2_size := 1
  top_features := []
  interpretation := []
  summary := { significant_count := 0, top_variables := [], top_racks := [] }

/-- A fully populated state whose history already holds 10 entries. -/
def sFull : DashboardState :=
  { sEx with
    clusters := ⟨some [1, 2], some [3]⟩
    topFeatures := some tfEx
    interpretation := some [secEx]
    analysisHistory := List.replicate 10 savedOld }

/-- A two-row embedding response. -/
def embEx : List (List ℚ) := [[1, 2], [3, 4]]

/-! ### Characterisation of the summary ranking (for C7) -/

/-- The counting fold of `saveCurrentAnalysis`, generalised to a name list. -/
def countsAux (l : List String) : List (String × ℕ) := l.foldl bumpVariable []

/-- The distinct variable names in first-seen order. -/
def firstSeenList (l : List String) : List String :=
  l.foldl (fun acc v => if acc.contains v then acc else acc ++ [v]) []

/-- Occurrence frequency of a variable name over the top features. -/
def varFreq (tf : List FeatureImportance) (v : String) : ℕ :=
  (tf.map FeatureImportance.variableName).count v

/-- The ranking relation of the spec: descending occurrence frequency, ties
broken by first-seen order. -/
def rankRel (tf : List FeatureImportance) (u v : String) : Prop :=
  varFreq tf v < varFreq tf u ∨
  (varFreq tf u = varFreq tf v ∧
    (firstSeenList (tf.map FeatureImportance.variableName)).indexOf u <
      (firstSeenList (tf.map FeatureImportance.variableName)).indexOf v)

/-! ### Invariant machinery shared by the reachability claims -/

/-- The cluster invariant: the two index sets are disjoint, and cluster2 is
only ever set while cluster1 is set. -/
def clusterInvSel (c : ClusterSelection) : Prop :=
  (c.cluster1.getD []).Disjoint (c.cluster2.getD []) ∧
  (c.cluster2.isSome → c.cluster1.isSome)

def clusterInv (s : DashboardState) : Prop := clusterInvSel s.clusters

theorem mem_brushCandidates_not_assigned {r : BrushRect} {w h : ℚ}
    {s : DashboardState} {i : ℕ} (hi : i ∈ brushCandidates r w h s) :
    i ∉ cluster1Ids s ∧ i ∉ cluster2Ids s := by
  unfold brushCandidates at hi
  simp only [List.mem_map] at hi
  obtain ⟨d, hd, rfl⟩ := hi
  rw [List.mem_filter] at hd
  obtain ⟨-, hpred⟩ := hd
  by_cases hc :
      ((cluster1Ids s).contains d.index || (cluster2Ids s).contains d.index) = true
  · rw [if_pos hc] at hpred
    exact absurd hpred (by simp)
  · simp only [Bool.or_eq_true, not_or] at hc
    constructor
    · intro hmem
      exact hc.1 (by simpa [List.contains, List.elem_eq_mem] using hmem)
    · intro hmem
      exact hc.2 (by simpa [List.contains, List.elem_eq_mem] using hmem)

theorem saveCurrentAnalysis_clusters (i : String) (n : ℕ) (s : DashboardState) :
    (saveCurrentAnalysis i n s).clusters = s.clusters := by
  unfold saveCurrentAnalysis
  split <;> rfl

theorem toggleHistorySelection_clusters (i : String) (s : DashboardState) :
    (toggleHistorySelection i s).clusters = s.clusters := rfl

theorem clusterInv_selectCluster1 (indices : List ℕ) (s : DashboardState) :
    clusterInv (selectCluster1 indices s) := by
  constructor
  · intro i hmem hmem2
    simp [selectCluster1] at hmem2
  · intro hs
    rfl

theorem clusterInv_brush_selectCluster2 {r : BrushRect} {w ih : ℚ}
    {s : DashboardState} {c1 : List ℕ} (heq1 : s.clusters.cluster1 = some c1) :
    clusterInv (selectCluster2 (brushCandidates r w ih s) s) := by
  constructor
  · intro i hmem hmem2
    have hmem2' : i ∈ brushCandidates r w ih s := by
      simpa [selectCluster2, cluster2Ids] using hmem2
    have hni := (mem_brushCandidates_not_assigned hmem2').1
    have hmem' : i ∈ cluster1Ids s := by
      simpa [selectCluster2, cluster1Ids] using hmem
    exact hni hmem'
  · intro _
    simp [selectCluster2, heq1]

theorem clusterInv_step (e : Event) (s : DashboardState) (h : clusterInv s) :
    clusterInv (step e s) := by
  cases e with
  | brush r w ih =>
      show clusterInv (handleBrushEnd r w ih s)
      unfold handleBrushEnd
      split
      · exact h
      · split
        · -- cluster1 unset: assign to cluster1
          dsimp only
          split
          · exact h
          · exact clusterInv_selectCluster1 _ s
        · -- cluster1 set, cluster2 unset: assign to cluster2
          next c1 heq1 heq2 =>
            dsimp only
            split
            · exact h
            · exact clusterInv_brush_selectCluster2 heq1
        · -- both set: overwrite cluster1, clear cluster2
          dsimp only
          split
          · exact h
          · exact clusterInv_selectCluster1 _ s
  | selC1 indices => exact clusterInv_selectCluster1 indices s
  | reset =>
      refine ⟨fun i hmem _ => ?_, fun hs => by simp [step, resetClusters] at hs⟩
      simp [step, resetClusters] at hmem
  | setEmb em lb sd ms mv => exact h
  | setResults f m => exact h
  | setInterp secs => exact h
  | save i n =>
      show clusterInv (saveCurrentAnalysis i n s)
      unfold clusterInv
      rw [saveCurrentAnalysis_clusters]
      exact h
  | toggleSel i =>
      show clusterInv (toggleHistorySelection i s)
      unfold clusterInv
      rw [toggleHistorySelection_clusters]
      exact h
  | clearHist => exact h
  | clearHistSel => exact h

theorem clusterInv_run (evs : List Event) : clusterInv (run evs) := by
  have main : ∀ (l : List Event) (s : DashboardState), clusterInv s →
      clusterInv (l.foldl (fun t e => step e t) s) := by
    intro l
    induction l with
    | nil => exact fun s hs => hs
    | cons e rest ih => exact fun s hs => ih _ (clusterInv_step e s hs)
  exact main evs initialState
    ⟨fun i hmem _ => by simp [initialState, cluster1Ids] at hmem,
     by simp [initialState]⟩

/-- C1: For every sequence of the documented operations (brush selection via
`handleBrushEnd` — which is how `selectCluster1`/`selectCluster2` receive
their candidate sets — plus direct `selectCluster1`, `resetClusters`,
`setEmbeddingData` and the remaining store operations), every reachable
`ClusterSelection` state satisfies `cluster1 ∩ cluster2 = ∅`. -/
theorem reachable_cluster_inter_empty (evs : List Event) :
    cluster1Ids (run evs) ∩ cluster2Ids (run evs) = [] := by
  rw [List.inter_eq_nil_iff_disjoint]
  exact (clusterInv_run evs).1

/-- C10: Every call to `selectCluster1` — with any argument, in any state —
sets cluster2 to `none`; consequently no reachable state has cluster2 set
while cluster1 is unset. -/
theorem selectCluster1_clears_cluster2_orphan_free :
    (∀ (indices : List ℕ) (s : DashboardState),
        (selectCluster1 indices s).clusters.cluster2 = none) ∧
    (∀ evs : List Event,
        ((run evs).clusters.cluster2.isSome &&
         (run evs).clusters.cluster1.isNone) = false) := by
  constructor
  · intro indices s; rfl
  · intro evs
    have h := (clusterInv_run evs).2
    by_cases hc2 : (run evs).clusters.cluster2.isSome = true
    · have h1 := h hc2
      obtain ⟨v, hv⟩ := Option.isSome_iff_exists.mp h1
      simp [hc2, hv]
    · rw [Bool.not_eq_true] at hc2
      simp [hc2]

/-! ### C2: the two-slot assignment policy of `handleBrushEnd` -/

theorem brushCandidates_ne_nil_embeddingData {r : BrushRect} {w ih : ℚ}
    {s : DashboardState} (hS : brushCandidates r w ih s ≠ []) :
    s.embeddingData.isEmpty = false := by
  cases hE : s.embeddingData with
  | nil => exact absurd (by simp [brushCandidates, hE]) hS
  | cons a l => rfl

/-- C2: Given a non-empty candidate set `S` from a completed brush gesture:
from Empty, `S` is assigned to cluster1; from OneFilled (cluster1 set,
cluster2 unset), `S` is assigned to cluster2 leaving cluster1 unchanged; from
BothFilled, cluster1 is overwritten with `S` and cluster2 is cleared,
yielding OneFilled. -/
theorem handleBrushEnd_state_machine (r : BrushRect) (w ih : ℚ)
    (s : DashboardState) (hS : brushCandidates r w ih s ≠ []) :
    (s.clusters.cluster1 = none → s.clusters.cluster2 = none →
      (handleBrushEnd r w ih s).clusters =
        ⟨some (brushCandidates r w ih s), none⟩) ∧
    (∀ c1, s.clusters.cluster1 = some c1 → s.clusters.cluster2 = none →
      (handleBrushEnd r w ih s).clusters =
        ⟨some c1, some (brushCandidates r w ih s)⟩) ∧
    (s.clusters.cluster1.isSome → s.clusters.cluster2.isSome →
      (handleBrushEnd r w ih s).clusters =
        ⟨some (brushCandidates r w ih s), none⟩) := by
  have hne := brushCandidates_ne_nil_embeddingData hS
  have hEm : (brushCandidates r w ih s).isEmpty = false := by
    simpa [List.isEmpty_iff] using hS
  refine ⟨fun h1 h2 => ?_, fun c1 h1 h2 => ?_, fun h1 h2 => ?_⟩
  · simp only [handleBrushEnd, hne, Bool.false_eq_true, if_false, h1, h2, hEm,
      selectCluster1]
  · simp only [handleBrushEnd, hne, Bool.false_eq_true, if_false, h1, h2, hEm,
      selectCluster2]
  · obtain ⟨c1, hc1⟩ := Option.isSome_iff_exists.mp h1
    obtain ⟨c2, hc2⟩ := Option.isSome_iff_exists.mp h2
    simp only [handleBrushEnd, hne, Bool.false_eq_true, if_false, hc1, hc2, hEm,
      selectCluster1]

/-! ### C3: the candidate set of a brush gesture -/

/-- C3: a point already present in cluster1 or cluster2 is never a candidate
regardless of the rectangle; a remaining point is a candidate exactly when
its mapped screen position lies in the inclusive rectangle; candidates are an
order-preserving subsequence of the point collection's iteration order; and
an empty candidate set makes the gesture a no-op. -/
theorem handleBrushEnd_candidate_spec (r : BrushRect) (w ih : ℚ)
    (s : DashboardState) :
    (∀ i ∈ brushCandidates r w ih s, i ∉ cluster1Ids s ∧ i ∉ cluster2Ids s) ∧
    ((s.embeddingData.map EmbeddingPoint.index).Nodup →
      ∀ d ∈ s.embeddingData, d.index ∉ cluster1Ids s → d.index ∉ cluster2Ids s →
        (d.index ∈ brushCandidates r w ih s ↔
          inBrushRect r w ih s.embeddingData d)) ∧
    (brushCandidates r w ih s).Sublist (s.embeddingData.map EmbeddingPoint.index) ∧
    (brushCandidates r w ih s = [] → handleBrushEnd r w ih s = s) := by
  refine ⟨fun i hi => mem_brushCandidates_not_assigned hi, ?_, ?_, ?_⟩
  · intro hnodup d hd hn1 hn2
    have hcont1 : (cluster1Ids s).contains d.index = false := by
      simp [List.contains, List.elem_eq_mem, hn1]
    have hcont2 : (cluster2Ids s).contains d.index = false := by
      simp [List.contains, List.elem_eq_mem, hn2]
    constructor
    · intro hmem
      unfold brushCandidates at hmem
      simp only [List.mem_map] at hmem
      obtain ⟨e, he, heq⟩ := hmem
      rw [List.mem_filter] at he
      obtain ⟨heData, hpred⟩ := he
      have hde : e = d := List.inj_on_of_nodup_map hnodup heData hd heq
      subst hde
      rw [if_neg (by simpa using And.intro hn1 hn2)] at hpred
      exact of_decide_eq_true hpred
    · intro hbox
      unfold brushCandidates
      simp only [List.mem_map]
      refine ⟨d, ?_, rfl⟩
      rw [List.mem_filter]
      exact ⟨hd, by rw [if_neg (by simpa using And.intro hn1 hn2)]
                    exact decide_eq_true hbox⟩
  · exact (List.filter_sublist _).map _
  · intro hnil
    unfold handleBrushEnd
    split
    · rfl
    · split
      all_goals dsimp only
      all_goals rw [hnil]
      all_goals rfl

/-! ### C4 / C6 / C7: `saveCurrentAnalysis` -/

/-- C4: `saveCurrentAnalysis` prepends the new `SavedAnalysis` (History is
most-recent-first) and the History never exceeds 10 entries: saving with 10
entries held yields exactly 10 entries with the oldest (tail) entry dropped. -/
theorem saveCurrentAnalysis_history_bound (nid : String) (now : ℕ)
    (s : DashboardState) (h1 : s.clusters.cluster1.isSome)
    (h2 : s.clusters.cluster2.isSome) (h3 : s.topFeatures.isSome)
    (h4 : s.interpretation.isSome) :
    (∃ a : SavedAnalysis, a.id = nid ∧ a.timestamp = now ∧
      (saveCurrentAnalysis nid now s).analysisHistory =
        a :: s.analysisHistory.take 9) ∧
    (saveCurrentAnalysis nid now s).analysisHistory.length =
      min (s.analysisHistory.length + 1) MAX_HISTORY_SIZE ∧
    (s.analysisHistory.length = MAX_HISTORY_SIZE →
      (saveCurrentAnalysis nid now s).analysisHistory.length = MAX_HISTORY_SIZE ∧
      (saveCurrentAnalysis nid now s).analysisHistory.tail =
        s.analysisHistory.dropLast) := by
  obtain ⟨c1, hc1⟩ := Option.isSome_iff_exists.mp h1
  obtain ⟨c2, hc2⟩ := Option.isSome_iff_exists.mp h2
  obtain ⟨tf, htf⟩ := Option.isSome_iff_exists.mp h3
  obtain ⟨interp, hint⟩ := Option.isSome_iff_exists.mp h4
  have key : ∃ a : SavedAnalysis, a.id = nid ∧ a.timestamp = now ∧
      (saveCurrentAnalysis nid now s).analysisHistory =
        (a :: s.analysisHistory).take MAX_HISTORY_SIZE := by
    unfold saveCurrentAnalysis
    simp only [hc1, hc2, htf, hint]
    exact ⟨_, rfl, rfl, rfl⟩
  obtain ⟨a, haid, hats, hhist⟩ := key
  rw [show MAX_HISTORY_SIZE = 9 + 1 from rfl, List.take_succ_cons] at hhist
  refine ⟨⟨a, haid, hats, hhist⟩, ?_, ?_⟩
  · rw [hhist]
    simp only [List.length_cons, List.length_take, MAX_HISTORY_SIZE, inf_eq_min]
    omega
  · intro hlen
    constructor
    · rw [hhist]
      simp only [List.length_cons, List.length_take, hlen, MAX_HISTORY_SIZE,
        inf_eq_min]
      omega
    · rw [hhist, List.dropLast_eq_take, hlen]
      rfl

/-- C6: `saveCurrentAnalysis` is a silent no-op (the entire state unchanged,
no error) when any of cluster1, cluster2, topFeatures, interpretation is not
populated; when all four are populated it adds one snapshot and changes only
the History field. -/
theorem saveCurrentAnalysis_guard_frame (nid : String) (now : ℕ)
    (s : DashboardState) :
    ((s.clusters.cluster1 = none ∨ s.clusters.cluster2 = none ∨
      s.topFeatures = none ∨ s.interpretation = none) →
      saveCurrentAnalysis nid now s = s) ∧
    (s.clusters.cluster1.isSome → s.clusters.cluster2.isSome →
      s.topFeatures.isSome → s.interpretation.isSome →
      ∃ a : SavedAnalysis, saveCurrentAnalysis nid now s =
        { s with analysisHistory :=
            (a :: s.analysisHistory).take MAX_HISTORY_SIZE }) := by
  constructor
  · intro hmiss
    unfold saveCurrentAnalysis
    cases hc1 : s.clusters.cluster1 with
    | none => rfl
    | some c1 =>
      cases hc2 : s.clusters.cluster2 with
      | none => rfl
      | some c2 =>
        cases hc3 : s.topFeatures with
        | none => rfl
        | some tf =>
          cases hc4 : s.interpretation with
          | none => rfl
          | some interp =>
            simp [hc1, hc2, hc3, hc4] at hmiss
  · intro h1 h2 h3 h4
    obtain ⟨c1, hc1⟩ := Option.isSome_iff_exists.mp h1
    obtain ⟨c2, hc2⟩ := Option.isSome_iff_exists.mp h2
    obtain ⟨tf, htf⟩ := Option.isSome_iff_exists.mp h3
    obtain ⟨interp, hint⟩ := Option.isSome_iff_exists.mp h4
    unfold saveCurrentAnalysis
    simp only [hc1, hc2, htf, hint]
    exact ⟨_, rfl⟩

/-! ### C5: the comparison-selection sliding window -/

/-- C5: `toggleHistorySelection` keeps the comparison selection capped at 2;
with 2 ids selected, toggling a fresh id evicts the oldest selected id and
inserts the new one; toggling fresh ids A, B, C in sequence from an empty
selection leaves exactly [B, C]. -/
theorem toggleHistorySelection_sliding_window :
    (∀ (id : String) (s : DashboardState), s.selectedHistoryIds.length ≤ 2 →
      (toggleHistorySelection id s).selectedHistoryIds.length ≤ 2) ∧
    (∀ (id a b : String) (s : DashboardState), s.selectedHistoryIds = [a, b] →
      id ∉ s.selectedHistoryIds →
      (toggleHistorySelection id s).selectedHistoryIds = [b, id]) ∧
    (∀ (A B C : String) (s : DashboardState), s.selectedHistoryIds = [] →
      A ≠ B → C ≠ A → C ≠ B →
      (toggleHistorySelection C (toggleHistorySelection B
        (toggleHistorySelection A s))).selectedHistoryIds = [B, C]) := by
  have hne : ∀ (x y : String), x ≠ y → (x == y) = false := by
    intro x y hxy
    exact beq_eq_false_iff_ne.mpr hxy
  refine ⟨?_, ?_, ?_⟩
  · intro id s hlen
    show (toggleIds id s.selectedHistoryIds).length ≤ 2
    unfold toggleIds
    split
    · calc (s.selectedHistoryIds.filter fun hid => hid != id).length
          ≤ s.selectedHistoryIds.length := List.length_filter_le _ _
        _ ≤ 2 := hlen
    · simp only [sliceLast2, List.length_drop]
      omega
  · intro id a b s hsel hid
    rw [hsel] at hid
    show toggleIds id s.selectedHistoryIds = [b, id]
    rw [hsel]
    unfold toggleIds
    rw [if_neg (by simpa [List.contains, List.elem_eq_mem] using hid)]
    rfl
  · intro A B C s hsel hAB hCA hCB
    show toggleIds C (toggleIds B (toggleIds A s.selectedHistoryIds)) = [B, C]
    rw [hsel]
    have s1 : toggleIds A [] = [A] := rfl
    have s2 : toggleIds B [A] = [A, B] := by
      unfold toggleIds
      rw [if_neg (by simp [List.contains, List.elem_eq_mem, Ne.symm hAB])]
      rfl
    have s3 : toggleIds C [A, B] = [B, C] := by
      unfold toggleIds
      rw [if_neg (by simp [List.contains, List.elem_eq_mem, hCA, hCB])]
      rfl
    rw [s1, s2, s3]

/-! ### C8: frame effects of `resetClusters` and `setEmbeddingData` -/

/-- C8: `resetClusters` unsets cluster1, cluster2, the analysis result
(topFeatures and contributionMatrix) and the interpretation while leaving the
embedding points and the History unchanged; `setEmbeddingData` empties the
History and the comparison selection while leaving the cluster selection, the
analysis result and the interpretation unchanged. -/
theorem resetClusters_setEmbeddingData_frame (s : DashboardState)
    (embedding : List (List ℚ)) (labels : List ℤ)
    (sd ms mv : List (List ℚ)) :
    (resetClusters s).clusters = ⟨none, none⟩ ∧
    (resetClusters s).topFeatures = none ∧
    (resetClusters s).contributionMatrix = none ∧
    (resetClusters s).interpretation = none ∧
    (resetClusters s).embeddingData = s.embeddingData ∧
    (resetClusters s).analysisHistory = s.analysisHistory ∧
    (setEmbeddingData embedding labels sd ms mv s).analysisHistory = [] ∧
    (setEmbeddingData embedding labels sd ms mv s).selectedHistoryIds = [] ∧
    (setEmbeddingData embedding labels sd ms mv s).clusters = s.clusters ∧
    (setEmbeddingData embedding labels sd ms mv s).topFeatures = s.topFeatures ∧
    (setEmbeddingData embedding labels sd ms mv s).contributionMatrix =
      s.contributionMatrix ∧
    (setEmbeddingData embedding labels sd ms mv s).interpretation =
      s.interpretation :=
  ⟨rfl, rfl, rfl, rfl, rfl, rfl, rfl, rfl, rfl, rfl, rfl, rfl⟩

/-! ### C9: stability of the `index` field -/

/-- C9: the points created by `setEmbeddingData` carry `index` = their
position in the received full embedding (the original dataset row): the index
sequence is exactly `range embedding.length`, the index determines the
original row contents, and any filtered sub-collection keeps those original
identifiers (an order-preserving subsequence of `range embedding.length`)
rather than being renumbered by filtered position. -/
theorem setEmbeddingData_index_stable (embedding : List (List ℚ))
    (labels : List ℤ) (sd ms mv : List (List ℚ)) (s : DashboardState) :
    ((setEmbeddingData embedding labels sd ms mv s).embeddingData.map
      EmbeddingPoint.index) = List.range embedding.length ∧
    (∀ p ∈ (setEmbeddingData embedding labels sd ms mv s).embeddingData,
      p.x = (embedding.getD p.index []).getD 0 0 ∧
      p.y = (embedding.getD p.index []).getD 1 0 ∧
      p.label = labels.getD p.index 0) ∧
    (∀ pred : EmbeddingPoint → Bool,
      (((setEmbeddingData embedding labels sd ms mv s).embeddingData.filter
          pred).map EmbeddingPoint.index).Sublist
        (List.range embedding.length)) := by
  have hmap : ((setEmbeddingData embedding labels sd ms mv s).embeddingData.map
      EmbeddingPoint.index) = List.range embedding.length := by
    show ((embedding.enum.map _).map EmbeddingPoint.index) = _
    rw [List.map_map]
    exact List.enum_map_fst embedding
  refine ⟨hmap, ?_, ?_⟩
  · intro p hp
    simp only [setEmbeddingData, List.mem_map] at hp
    obtain ⟨q, hq, rfl⟩ := hp
    rw [List.mem_enum_iff_getElem?] at hq
    exact ⟨by simp [List.getD, hq], by simp [List.getD, hq], rfl⟩
  · intro pred
    have hsub := (List.filter_sublist
      ((setEmbeddingData embedding labels sd ms mv s).embeddingData)
      (p := pred)).map EmbeddingPoint.index
    rw [hmap] at hsub
    exact hsub

/-! ### C7: the saved summary -/

theorem variableCounts_eq_countsAux (tf : List FeatureImportance) :
    variableCounts tf = countsAux (tf.map FeatureImportance.variableName) := by
  unfold variableCounts countsAux
  rw [List.foldl_map]

theorem firstSeenList_append_singleton (l : List String) (x : String) :
    firstSeenList (l ++ [x]) =
      if (firstSeenList l).contains x then firstSeenList l
      else firstSeenList l ++ [x] := by
  unfold firstSeenList
  rw [List.foldl_append]
  rfl

/-- The counting fold yields, in first-seen key order, the occurrence count
of every distinct name; and the first-seen list is exactly the distinct
names, without duplicates. -/
theorem countsAux_spec (l : List String) :
    countsAux l = (firstSeenList l).map (fun v => (v, l.count v)) ∧
    (∀ v, v ∈ firstSeenList l ↔ v ∈ l) ∧ (firstSeenList l).Nodup := by
  induction l using List.reverseRecOn with
  | nil => exact ⟨rfl, by simp [firstSeenList], by simp [firstSeenList]⟩
  | append_singleton l x ih =>
    obtain ⟨ihEq, ihMem, ihNd⟩ := ih
    have hCA : countsAux (l ++ [x]) = bumpVariable (countsAux l) x := by
      unfold countsAux
      rw [List.foldl_append]
      rfl
    by_cases hx : x ∈ firstSeenList l
    · have hcont : (firstSeenList l).contains x = true := by
        simp [List.contains, List.elem_eq_mem, hx]
      have hFx : firstSeenList (l ++ [x]) = firstSeenList l := by
        rw [firstSeenList_append_singleton, if_pos hcont]
      refine ⟨?_, ?_, ?_⟩
      · rw [hCA, ihEq]
        unfold bumpVariable
        rw [if_pos (by
          rw [List.any_eq_true]
          exact ⟨(x, l.count x), List.mem_map.mpr ⟨x, hx, rfl⟩, by simp⟩)]
        rw [hFx, List.map_map]
        apply List.map_congr_left
        intro v hv
        by_cases hvx : v = x
        · subst hvx
          simp [Function.comp, List.count_append]
        · have hb : (v == x) = false := beq_eq_false_iff_ne.mpr hvx
          simp [Function.comp, hb, List.count_append,
            List.count_singleton', Ne.symm hvx]
      · intro v
        rw [hFx]
        constructor
        · intro hv
          exact List.mem_append.mpr (Or.inl ((ihMem v).mp hv))
        · intro hv
          rcases List.mem_append.mp hv with hmem | hmem
          · exact (ihMem v).mpr hmem
          · rw [List.mem_singleton] at hmem
            subst hmem
            exact hx
      · rw [hFx]
        exact ihNd
    · have hxl : x ∉ l := fun hmem => hx ((ihMem x).mpr hmem)
      have hcont : (firstSeenList l).contains x = false := by
        simp [List.contains, List.elem_eq_mem, hx]
      have hFx : firstSeenList (l ++ [x]) = firstSeenList l ++ [x] := by
        rw [firstSeenList_append_singleton, hcont]
        rfl
      refine ⟨?_, ?_, ?_⟩
      · rw [hCA, ihEq]
        unfold bumpVariable
        rw [if_neg (by
          rw [Bool.not_eq_true, List.any_eq_false]
          intro e he
          obtain ⟨v, hvF, rfl⟩ := List.mem_map.mp he
          intro hbeq
          have hvx : v = x := by simpa using eq_of_beq hbeq
          exact hx (hvx ▸ hvF))]
        rw [hFx, List.map_append]
        congr 1
        · apply List.map_congr_left
          intro v hv
          have hvx : v ≠ x := fun hvex => hx (hvex ▸ hv)
          have hb : (v == x) = false := beq_eq_false_iff_ne.mpr hvx
          simp [List.count_append, List.count_singleton', hb, Ne.symm hvx]
        · simp [List.count_append, List.count_eq_zero.mpr hxl]
      · intro v
        rw [hFx]
        simp [List.mem_append, ihMem v]
      · rw [hFx, List.nodup_append]
        refine ⟨ihNd, List.nodup_singleton x, ?_⟩
        intro a ha hmem
        rw [List.mem_singleton] at hmem
        subst hmem
        exact hx ha

theorem countDescLe_trans (a b c : ℕ × (String × ℕ))
    (hab : countDescLe a b = true) (hbc : countDescLe b c = true) :
    countDescLe a c = true := by
  simp only [countDescLe, decide_eq_true_eq] at *
  omega

theorem countDescLe_total (a b : ℕ × (String × ℕ)) :
    (countDescLe a b || countDescLe b a) = true := by
  simp only [countDescLe, Bool.or_eq_true, decide_eq_true_eq]
  omega

/-- The sorted variable list of `saveCurrentAnalysis` is a permutation of the
distinct variable names (in particular it mentions each exactly once), and it
is ranked by descending occurrence frequency with ties in first-seen order. -/
theorem sortedVarsOf_spec (tf : List FeatureImportance) :
    (sortedVarsOf tf).Perm
      (firstSeenList (tf.map FeatureImportance.variableName)) ∧
    (sortedVarsOf tf).Pairwise (rankRel tf) := by
  obtain ⟨hEq, hMem, hNd⟩ := countsAux_spec (tf.map FeatureImportance.variableName)
  have hentries : variableCounts tf =
      (firstSeenList (tf.map FeatureImportance.variableName)).map
        (fun v => (v, (tf.map FeatureImportance.variableName).count v)) := by
    rw [variableCounts_eq_countsAux]
    exact hEq
  have hperm : ((variableCounts tf).enum.mergeSort countDescLe).Perm
      (variableCounts tf).enum := List.mergeSort_perm _ _
  have hmapsnd : (variableCounts tf).enum.map (fun e => e.2.1) =
      firstSeenList (tf.map FeatureImportance.variableName) := by
    have h1 : (variableCounts tf).enum.map (fun e : ℕ × (String × ℕ) => e.2.1) =
        ((variableCounts tf).enum.map Prod.snd).map Prod.fst := by
      rw [List.map_map]
      rfl
    rw [h1, List.enum_map_snd, hentries, List.map_map]
    exact List.map_id _
  constructor
  · have hp := hperm.map (fun e : ℕ × (String × ℕ) => e.2.1)
    rw [hmapsnd] at hp
    exact hp
  · have hsorted := List.sorted_mergeSort countDescLe_trans countDescLe_total
      (variableCounts tf).enum
    have hndfst : (((variableCounts tf).enum.mergeSort countDescLe).map
        Prod.fst).Nodup := by
      have hp2 := (hperm.map Prod.fst).symm
      apply hp2.nodup
      rw [List.enum_map_fst]
      exact List.nodup_range _
    have hPne : ((variableCounts tf).enum.mergeSort countDescLe).Pairwise
        (fun p q => p.1 ≠ q.1) :=
      List.pairwise_map.mp hndfst
    have hcomb := hsorted.and hPne
    apply List.pairwise_map.mpr
    apply hcomb.imp_of_mem
    intro p q hp hq hpq
    obtain ⟨hle, hne⟩ := hpq
    have hpE := hperm.mem_iff.mp hp
    have hqE := hperm.mem_iff.mp hq
    rw [List.mem_enum_iff_getElem?, hentries, List.getElem?_map] at hpE hqE
    cases hFp : (firstSeenList (tf.map FeatureImportance.variableName))[p.1]? with
    | none => rw [hFp] at hpE; simp at hpE
    | some u =>
      cases hFq : (firstSeenList (tf.map FeatureImportance.variableName))[q.1]? with
      | none => rw [hFq] at hqE; simp at hqE
      | some v =>
        rw [hFp] at hpE
        rw [hFq] at hqE
        simp only [Option.map_some'] at hpE hqE
        have hiu : (firstSeenList (tf.map FeatureImportance.variableName)).indexOf u
            = p.1 := by
          obtain ⟨hlt, hget⟩ := List.getElem?_eq_some.mp hFp
          rw [← hget]
          exact List.indexOf_getElem hNd p.1 hlt
        have hiv : (firstSeenList (tf.map FeatureImportance.variableName)).indexOf v
            = q.1 := by
          obtain ⟨hlt, hget⟩ := List.getElem?_eq_some.mp hFq
          rw [← hget]
          exact List.indexOf_getElem hNd q.1 hlt
        have hpE' : p.2 =
            (u, List.count u (tf.map FeatureImportance.variableName)) :=
          (Option.some.inj hpE).symm
        have hqE' : q.2 =
            (v, List.count v (tf.map FeatureImportance.variableName)) :=
          (Option.some.inj hqE).symm
        rw [hpE', hqE']
        unfold rankRel varFreq
        dsimp only
        rw [hiu, hiv]
        simp only [countDescLe, decide_eq_true_eq] at hle
        rw [hpE', hqE'] at hle
        dsimp only at hle
        omega

/-- C7: when `saveCurrentAnalysis` creates a snapshot, its summary satisfies:
`significant_count` = the number of topFeatures whose nested p-value is below
0.05; `top_variables` = the variable names ranked by descending occurrence
frequency with ties in first-seen order, truncated to 3; `top_racks` = the
rack of the first 5 topFeatures in their existing order, not re-sorted. -/
theorem saveCurrentAnalysis_summary_spec (nid : String) (now : ℕ)
    (s : DashboardState) (tf : List FeatureImportance)
    (htf : s.topFeatures = some tf) (h1 : s.clusters.cluster1.isSome)
    (h2 : s.clusters.cluster2.isSome) (h4 : s.interpretation.isSome) :
    ∃ a : SavedAnalysis,
      (saveCurrentAnalysis nid now s).analysisHistory.head? = some a ∧
      a.summary.significant_count =
        (tf.filter (fun f =>
          decide (f.statistical_result.p_value < 0.05))).length ∧
      a.summary.top_variables = (sortedVarsOf tf).take 3 ∧
      (sortedVarsOf tf).Perm
        (firstSeenList (tf.map FeatureImportance.variableName)) ∧
      (sortedVarsOf tf).Pairwise (rankRel tf) ∧
      a.summary.top_racks = (tf.take 5).map (fun f => f.rack) := by
  obtain ⟨c1, hc1⟩ := Option.isSome_iff_exists.mp h1
  obtain ⟨c2, hc2⟩ := Option.isSome_iff_exists.mp h2
  obtain ⟨interp, hint⟩ := Option.isSome_iff_exists.mp h4
  unfold saveCurrentAnalysis
  simp only [hc1, hc2, htf, hint]
  rw [show MAX_HISTORY_SIZE = 9 + 1 from rfl, List.take_succ_cons]
  exact ⟨_, rfl, rfl, rfl, (sortedVarsOf_spec tf).1, (sortedVarsOf_spec tf).2, rfl⟩

/-! ### Witnesses: the theorems above applied at concrete inputs

The arithmetic of `Rat` is `@[irreducible]` in the ambient library, so it is
made reducible locally for the kernel evaluations below. -/

section Witnesses

attribute [local semireducible] Rat.add Rat.mul Rat.sub Rat.inv Rat.ofScientific

/-- Witness for C2: in the two-point state, brushing the rectangle around the
first point selects exactly index 0 into cluster1. -/
theorem handleBrushEnd_state_machine_witness :
    brushCandidates rectA 13 13 sEx = [0] ∧
    (handleBrushEnd rectA 13 13 sEx).clusters =
      ⟨some (brushCandidates rectA 13 13 sEx), none⟩ :=
  ⟨by decide,
   (handleBrushEnd_state_machine rectA 13 13 sEx (by decide)).1 rfl rfl⟩

/-- Witness for C3, at the two-point state: the exclusion fact at index 0,
the membership-iff-rectangle fact at `ptA`, and the empty-candidate no-op. -/
theorem handleBrushEnd_candidate_spec_witness :
    (0 ∉ cluster1Ids sEx ∧ 0 ∉ cluster2Ids sEx) ∧
    (ptA.index ∈ brushCandidates rectA 13 13 sEx ↔
      inBrushRect rectA 13 13 sEx.embeddingData ptA) ∧
    handleBrushEnd rectNone 13 13 sEx = sEx :=
  ⟨(handleBrushEnd_candidate_spec rectA 13 13 sEx).1 0 (by decide),
   (handleBrushEnd_candidate_spec rectA 13 13 sEx).2.1 (by decide) ptA
     (by decide) (by decide) (by decide),
   (handleBrushEnd_candidate_spec rectNone 13 13 sEx).2.2.2 (by decide)⟩

/-- Witness for C4: saving on a full 10-entry history keeps exactly 10
entries and drops the oldest (tail) entry. -/
theorem saveCurrentAnalysis_history_bound_witness :
    (saveCurrentAnalysis "fresh" 99 sFull).analysisHistory.length =
      MAX_HISTORY_SIZE ∧
    (saveCurrentAnalysis "fresh" 99 sFull).analysisHistory.tail =
      sFull.analysisHistory.dropLast :=
  (saveCurrentAnalysis_history_bound "fresh" 99 sFull (by decide) (by decide)
    (by decide) (by decide)).2.2 (by decide)

/-- Witness for C5: toggling a, b, c in sequence leaves [b, c]. -/
theorem toggleHistorySelection_sliding_window_witness :
    (toggleHistorySelection "c" (toggleHistorySelection "b"
      (toggleHistorySelection "a" initialState))).selectedHistoryIds =
      ["b", "c"] :=
  toggleHistorySelection_sliding_window.2.2 "a" "b" "c" initialState rfl
    (by decide) (by decide) (by decide)

/-- Witness for C6: saving in the unpopulated initial state is an identity,
and saving in the fully populated state only rewrites the history. -/
theorem saveCurrentAnalysis_guard_frame_witness :
    saveCurrentAnalysis "x" 0 initialState = initialState ∧
    ∃ a : SavedAnalysis, saveCurrentAnalysis "fresh" 99 sFull =
      { sFull with analysisHistory :=
          (a :: sFull.analysisHistory).take MAX_HISTORY_SIZE } :=
  ⟨(saveCurrentAnalysis_guard_frame "x" 0 initialState).1 (Or.inl rfl),
   (saveCurrentAnalysis_guard_frame "fresh" 99 sFull).2 (by decide) (by decide)
     (by decide) (by decide)⟩

/-- Witness for C7: the summary of the snapshot saved from `sFull`. -/
theorem saveCurrentAnalysis_summary_spec_witness :
    ∃ a : SavedAnalysis,
      (saveCurrentAnalysis "fresh" 99 sFull).analysisHistory.head? = some a ∧
      a.summary.significant_count =
        (tfEx.filter (fun f =>
          decide (f.statistical_result.p_value < 0.05))).length ∧
      a.summary.top_variables = (sortedVarsOf tfEx).take 3 ∧
      (sortedVarsOf tfEx).Perm
        (firstSeenList (tfEx.map FeatureImportance.variableName)) ∧
      (sortedVarsOf tfEx).Pairwise (rankRel tfEx) ∧
      a.summary.top_racks = (tfEx.take 5).map (fun f => f.rack) :=
  saveCurrentAnalysis_summary_spec "fresh" 99 sFull tfEx rfl (by decide)
    (by decide) (by decide)

/-- Witness for C9: the second created point of `embEx` carries index 1 and
is determined by row 1 of the original embedding and label list. -/
theorem setEmbeddingData_index_stable_witness :
    (⟨3, 4, 1, 6⟩ : EmbeddingPoint).x = (embEx.getD 1 []).getD 0 0 ∧
    (⟨3, 4, 1, 6⟩ : EmbeddingPoint).y = (embEx.getD 1 []).getD 1 0 ∧
    (⟨3, 4, 1, 6⟩ : EmbeddingPoint).label = ([5, 6] : List ℤ).getD 1 0 :=
  (setEmbeddingData_index_stable embEx [5, 6] [] [] [] initialState).2.1
    ⟨3, 4, 1, 6⟩ (by decide)

end Witnesses

end TCVis
